import Mathlib

/-!
Verification of the desktop-doc in-browser compositor/player.

The definitions below are a shallow embedding of the timeline, playback,
recording and media-cache logic of `src/unnamed/part_000` (the variant the
spec documents; `src/src/App.jsx` is an earlier copy of the same component).
Times and durations are rationals; the JavaScript falsy-defaulting idiom
`x || y` on numeric fields is modelled on `Option ℚ` by `jsOr`.
-/

/-- JS numeric `a || b`: the fallback `b` is used when `a` is absent
(`undefined`) or `0` (falsy). -/
def jsOr : Option ℚ → ℚ → ℚ
  | none, fb => fb
  | some x, fb => if x = 0 then fb else x

/-- Media kind of a library item (`lib.type` ∈ {"image", "video"}). -/
inductive LibKind where
  | image
  | video
deriving DecidableEq

/-- A library item: ingested media with an id, kind, object url and, for
video, an intrinsic duration probed from metadata (`probeVideo`). -/
structure LibItem where
  id : ℕ
  kind : LibKind
  url : String
  duration : Option ℚ
deriving DecidableEq

/-- A timeline entry (clip): a reference to a library item by id, a stored
duration (meaningful for images) and a caption. -/
structure Clip where
  id : ℕ
  libId : ℕ
  duration : Option ℚ
  caption : String
deriving DecidableEq

/-- Embedding of `library.find((l) => l.id === clip.libId)`. -/
def findLib (library : List LibItem) (c : Clip) : Option LibItem :=
  library.find? (fun l => l.id == c.libId)

/-- Per-entry contribution inside `totalDuration`'s reduce: a dangling
reference contributes nothing (`if (!lib) return acc`); a video contributes
`lib.duration || 0`; an image contributes `clip.duration || 3`. -/
def tdDur (library : List LibItem) (c : Clip) : ℚ :=
  match findLib library c with
  | none => 0
  | some lib =>
      if lib.kind = LibKind.video then jsOr lib.duration 0 else jsOr c.duration 3

/-- Embedding of `totalDuration`: `timeline.reduce(...)` from the source, accumulator
threaded exactly as in the code. -/
def totalDuration (library : List LibItem) (timeline : List Clip) : ℚ :=
  timeline.foldl
    (fun acc c =>
      match findLib library c with
      | none => acc
      | some lib =>
          if lib.kind = LibKind.video then acc + jsOr lib.duration 0
          else acc + jsOr c.duration 3)
    0

/-- Per-entry duration used by the active-clip walk:
`lib?.type === "video" ? lib.duration || 0 : clip.duration || 3`.
Note a dangling reference falls into the image branch here (duration
`clip.duration || 3`), unlike in `totalDuration`. -/
def lookupDur (library : List LibItem) (c : Clip) : ℚ :=
  match findLib library c with
  | some lib =>
      if lib.kind = LibKind.video then jsOr lib.duration 0 else jsOr c.duration 3
  | none => jsOr c.duration 3

/-- Result record of `activeIndexAt`: `{ index, localTime, duration }` with
the sentinel `index = -1` for "not found". -/
structure ActiveResult where
  index : ℤ
  localTime : ℚ
  duration : ℚ
deriving DecidableEq

/-- The loop body of `activeIndexAt`: walks the timeline with accumulator
`acc` and position `i`, returning the first entry with `t < acc + d`. -/
def activeIndexAtFrom (library : List LibItem) :
    List Clip → ℚ → ℚ → ℕ → ActiveResult
  | [], _, _, _ => ⟨-1, 0, 0⟩
  | c :: rest, t, acc, i =>
      let d := lookupDur library c
      if t < acc + d then ⟨(i : ℤ), t - acc, d⟩
      else activeIndexAtFrom library rest t (acc + d) (i + 1)

/-- Embedding of `activeIndexAt(t)` from the source: the walk started with `acc = 0`. -/
def activeIndexAt (library : List LibItem) (timeline : List Clip) (t : ℚ) :
    ActiveResult :=
  activeIndexAtFrom library timeline t 0 0

/-- The list of per-entry walk durations used by `activeIndexAt`. -/
def walkDurs (library : List LibItem) (timeline : List Clip) : List ℚ :=
  timeline.map (lookupDur library)

/-- Sum of the first `i` elements of a list of durations (the accumulator
value `acc` reached in front of entry `i`). -/
def takeSum (l : List ℚ) (i : ℕ) : ℚ :=
  (l.take i).sum

/-- Spec-side effective duration (§3 of the spec): video ⇒ the referenced
item's intrinsic duration, image ⇒ the entry's own duration, dangling ⇒ 0.
Written from the spec's words, to be compared with `tdDur` from the code. -/
def specEffectiveDuration (library : List LibItem) (c : Clip) : ℚ :=
  match findLib library c with
  | none => 0
  | some lib =>
      match lib.kind with
      | LibKind.video => lib.duration.getD 0
      | LibKind.image => c.duration.getD 0

/-- Embedding of `addToTimeline`: appends a fresh clip with duration 4 and an empty caption. -/
def addToTimeline (timeline : List Clip) (uuid libId : ℕ) : List Clip :=
  timeline ++ [{ id := uuid, libId := libId, duration := some 4, caption := "" }]

-- Basic facts about the fold and the walk.

lemma jsOr_zero (o : Option ℚ) : jsOr o 0 = o.getD 0 := by
  cases o with
  | none => rfl
  | some x =>
      by_cases hx : x = 0 <;> simp [jsOr, hx]

lemma totalDuration_eq_foldl_add (library : List LibItem) :
    ∀ (timeline : List Clip) (init : ℚ),
      timeline.foldl
        (fun acc c =>
          match findLib library c with
          | none => acc
          | some lib =>
              if lib.kind = LibKind.video then acc + jsOr lib.duration 0
              else acc + jsOr c.duration 3)
        init = init + (timeline.map (tdDur library)).sum := by
  intro timeline
  induction timeline with
  | nil => intro init; simp
  | cons c rest ih =>
      intro init
      simp only [List.foldl_cons, List.map_cons, List.sum_cons, ih]
      cases h : findLib library c with
      | none => simp [tdDur, h]
      | some lib =>
          by_cases hk : lib.kind = LibKind.video <;>
            simp [tdDur, h, hk] <;> ring

lemma totalDuration_eq_sum (library : List LibItem) (timeline : List Clip) :
    totalDuration library timeline = (timeline.map (tdDur library)).sum := by
  simpa using totalDuration_eq_foldl_add library timeline 0

lemma walkDurs_cons (library : List LibItem) (c : Clip) (rest : List Clip) :
    walkDurs library (c :: rest) = lookupDur library c :: walkDurs library rest := by
  simp [walkDurs]

lemma walkDurs_nonneg (library : List LibItem) (tl : List Clip)
    (hd : ∀ c ∈ tl, 0 ≤ lookupDur library c) :
    ∀ a ∈ walkDurs library tl, 0 ≤ a := by
  intro a ha
  obtain ⟨c, hc, rfl⟩ := List.mem_map.mp ha
  exact hd c hc

lemma takeSum_zero (l : List ℚ) : takeSum l 0 = 0 := by
  simp [takeSum]

lemma takeSum_cons (x : ℚ) (l : List ℚ) (i : ℕ) :
    takeSum (x :: l) (i + 1) = x + takeSum l i := by
  simp [takeSum, List.take_succ_cons]

lemma takeSum_nonneg (l : List ℚ) (h : ∀ a ∈ l, 0 ≤ a) (i : ℕ) :
    0 ≤ takeSum l i := by
  refine List.sum_nonneg ?_
  intro a ha
  exact h a (List.take_subset _ _ ha)

lemma takeSum_mono (l : List ℚ) (h : ∀ a ∈ l, 0 ≤ a) :
    ∀ {m n : ℕ}, m ≤ n → takeSum l m ≤ takeSum l n := by
  induction l with
  | nil => intro m n _; simp [takeSum]
  | cons x l ih =>
      intro m n hmn
      cases m with
      | zero =>
          rw [takeSum_zero]
          exact takeSum_nonneg _ h n
      | succ m' =>
          cases n with
          | zero => omega
          | succ n' =>
              rw [takeSum_cons, takeSum_cons]
              have hl : ∀ a ∈ l, 0 ≤ a := fun a ha => h a (List.mem_cons_of_mem _ ha)
              exact add_le_add_left (ih hl (by omega)) x

/-- Index-shift combinator describing how the walk's running position `i`
relates to a walk started at position 0; the NotFound sentinel is kept. -/
def shiftIndex (i : ℕ) (r : ActiveResult) : ActiveResult :=
  if r.index < 0 then r else ⟨r.index + i, r.localTime, r.duration⟩

lemma activeIndexAtFrom_shift (library : List LibItem) (tl : List Clip) :
    ∀ (t acc : ℚ) (i : ℕ),
      activeIndexAtFrom library tl t acc i =
        shiftIndex i (activeIndexAtFrom library tl (t - acc) 0 0) := by
  induction tl with
  | nil =>
      intro t acc i
      simp [activeIndexAtFrom, shiftIndex]
  | cons c rest ih =>
      intro t acc i
      simp only [activeIndexAtFrom]
      by_cases hlt : t < acc + lookupDur library c
      · rw [if_pos hlt, if_pos (by linarith : t - acc < 0 + lookupDur library c)]
        simp [shiftIndex]
      · rw [if_neg hlt, if_neg (by intro hco; apply hlt; linarith)]
        rw [ih t (acc + lookupDur library c) (i + 1)]
        rw [ih (t - acc) (0 + lookupDur library c) 1]
        have harg : t - (acc + lookupDur library c)
            = t - acc - (0 + lookupDur library c) := by ring
        rw [harg]
        set r := activeIndexAtFrom library rest
          (t - acc - (0 + lookupDur library c)) 0 0 with hr
        by_cases hri : r.index < 0
        · simp [shiftIndex, hri]
        · have h1 : ¬ ((⟨r.index + (1 : ℕ), r.localTime, r.duration⟩ :
              ActiveResult).index < 0) := by
            simp only []
            push_cast
            omega
          simp only [shiftIndex, if_neg hri, if_neg h1]
          refine congrArg (fun z => ActiveResult.mk z r.localTime r.duration) ?_
          push_cast
          ring

lemma activeIndexAt_cons (library : List LibItem) (c : Clip) (rest : List Clip)
    (t : ℚ) :
    activeIndexAt library (c :: rest) t =
      if t < lookupDur library c then ⟨0, t, lookupDur library c⟩
      else shiftIndex 1 (activeIndexAt library rest (t - lookupDur library c)) := by
  unfold activeIndexAt
  simp only [activeIndexAtFrom]
  by_cases h : t < lookupDur library c
  · rw [if_pos (by linarith : t < 0 + lookupDur library c), if_pos h]
    simp
  · rw [if_neg (by intro hco; apply h; linarith), if_neg h]
    rw [activeIndexAtFrom_shift]
    norm_num

lemma shiftIndex_mk_nonneg (i k : ℕ) (lt du : ℚ) :
    shiftIndex i ⟨(k : ℤ), lt, du⟩ = ⟨(k : ℤ) + i, lt, du⟩ := by
  simp only [shiftIndex]
  rw [if_neg (by omega)]

lemma shiftIndex_notFound (i : ℕ) :
    shiftIndex i ⟨-1, 0, 0⟩ = ⟨-1, 0, 0⟩ := by
  simp only [shiftIndex]
  rw [if_pos (by norm_num)]

/-- C1 (amended): with every per-entry walk duration nonnegative,
`activeIndexAt` returns, for `0 ≤ t` below the walk sum, the unique entry
whose half-open interval of accumulated walk durations contains `t`, with
`localTime = t - accumulated`; it returns the NotFound sentinel
`⟨-1, 0, 0⟩` exactly when `t` is at or beyond the sum of the walk durations
(in particular for an empty timeline); and for negative `t` on a nonempty
timeline it returns index 0 with the negative `localTime = t`, not
NotFound. -/
theorem activeIndexAt_walk_characterization (library : List LibItem)
    (tl : List Clip) (t : ℚ)
    (hd : ∀ c ∈ tl, 0 ≤ lookupDur library c) :
    (0 ≤ t → t < (walkDurs library tl).sum →
      ∃ i : ℕ, i < tl.length ∧
        takeSum (walkDurs library tl) i ≤ t ∧
        t < takeSum (walkDurs library tl) (i + 1) ∧
        activeIndexAt library tl t =
          ⟨(i : ℤ), t - takeSum (walkDurs library tl) i,
            takeSum (walkDurs library tl) (i + 1) - takeSum (walkDurs library tl) i⟩ ∧
        (∀ j : ℕ, takeSum (walkDurs library tl) j ≤ t →
          t < takeSum (walkDurs library tl) (j + 1) → j = i))
    ∧ ((walkDurs library tl).sum ≤ t → activeIndexAt library tl t = ⟨-1, 0, 0⟩)
    ∧ (t < 0 → tl ≠ [] →
        (activeIndexAt library tl t).index = 0 ∧
        (activeIndexAt library tl t).localTime = t) := by
  induction tl generalizing t with
  | nil =>
      refine ⟨?_, ?_, ?_⟩
      · intro h0 hlt
        simp [walkDurs] at hlt
        linarith
      · intro _; rfl
      · intro _ hne; exact absurd rfl hne
  | cons c rest ih =>
      have hd0 : 0 ≤ lookupDur library c := hd c (List.mem_cons_self _ _)
      have hdrest : ∀ c' ∈ rest, 0 ≤ lookupDur library c' :=
        fun c' hc' => hd c' (List.mem_cons_of_mem _ hc')
      have hall : ∀ a ∈ walkDurs library (c :: rest), 0 ≤ a :=
        walkDurs_nonneg library (c :: rest) hd
      have hallrest : ∀ a ∈ walkDurs library rest, 0 ≤ a :=
        walkDurs_nonneg library rest hdrest
      have hsumrest : 0 ≤ (walkDurs library rest).sum := List.sum_nonneg hallrest
      refine ⟨?_, ?_, ?_⟩
      · -- t inside the walk
        intro ht0 htlt
        rw [walkDurs_cons, List.sum_cons] at htlt
        by_cases hcase : t < lookupDur library c
        · refine ⟨0, by simp, ?_, ?_, ?_, ?_⟩
          · rw [takeSum_zero]; exact ht0
          · rw [walkDurs_cons, takeSum_cons, takeSum_zero]
            linarith
          · rw [activeIndexAt_cons, if_pos hcase]
            rw [walkDurs_cons, takeSum_cons, takeSum_zero, takeSum_zero]
            congr 1 <;> ring
          · intro j hj1 hj2
            by_contra hj0
            have hj1' : 1 ≤ j := by omega
            have hmono : takeSum (walkDurs library (c :: rest)) 1
                ≤ takeSum (walkDurs library (c :: rest)) j :=
              takeSum_mono _ hall hj1'
            rw [walkDurs_cons, takeSum_cons, takeSum_zero] at hmono
            rw [walkDurs_cons] at hj1
            linarith
        · push_neg at hcase
          have ht0' : 0 ≤ t - lookupDur library c := by linarith
          have htlt' : t - lookupDur library c < (walkDurs library rest).sum := by
            linarith
          obtain ⟨i', hi'len, hle, hlt, heq, huniq⟩ :=
            (ih (t - lookupDur library c) hdrest).1 ht0' htlt'
          refine ⟨i' + 1, by simpa using Nat.succ_lt_succ hi'len, ?_, ?_, ?_, ?_⟩
          · rw [walkDurs_cons, takeSum_cons]
            linarith
          · rw [walkDurs_cons, takeSum_cons]
            linarith
          · rw [activeIndexAt_cons, if_neg (by push_neg; exact hcase), heq,
              shiftIndex_mk_nonneg]
            rw [walkDurs_cons, takeSum_cons, takeSum_cons]
            congr 1
            all_goals ring
          · intro j hj1 hj2
            cases j with
            | zero =>
                rw [walkDurs_cons, takeSum_cons, takeSum_zero] at hj2
                linarith
            | succ j' =>
                rw [walkDurs_cons, takeSum_cons] at hj1
                rw [walkDurs_cons, takeSum_cons] at hj2
                have := huniq j' (by linarith) (by linarith)
                omega
      · -- t at or beyond the walk sum
        intro hsum
        rw [walkDurs_cons, List.sum_cons] at hsum
        rw [activeIndexAt_cons, if_neg (by push_neg; linarith)]
        rw [(ih (t - lookupDur library c) hdrest).2.1 (by linarith)]
        rfl
      · -- negative t, nonempty timeline
        intro ht _
        rw [activeIndexAt_cons, if_pos (by linarith)]
        exact ⟨rfl, rfl⟩

/-- Empty library used by the C1 counterexample: the timeline entry below is
a dangling reference. -/
def cexLibrary : List LibItem := []

/-- One-entry timeline whose `libId` resolves to nothing. -/
def cexTimeline : List Clip :=
  [{ id := 10, libId := 99, duration := some 4, caption := "" }]

/-- C1 counterexample: the claim says `activeIndexAt` returns NotFound
(index -1) whenever `t` is negative or `t ≥ totalDuration`; on this concrete
input it does neither — at `t = -1 < 0` it returns index 0, and at `t = 1`
(with `totalDuration = 0 ≤ 1`, the dangling entry contributing 0 there but
`clip.duration || 3 = 4` inside the walk) it also returns index 0. -/
theorem activeIndexAt_claim_counterexample :
    ((activeIndexAt cexLibrary cexTimeline (-1)).index ≠ -1 ∧ ((-1 : ℚ) < 0))
    ∧ ((activeIndexAt cexLibrary cexTimeline 1).index ≠ -1 ∧
        totalDuration cexLibrary cexTimeline ≤ 1) := by
  norm_num [activeIndexAt, activeIndexAtFrom, cexLibrary, cexTimeline,
    lookupDur, findLib, jsOr, totalDuration]

/-- Library for the C1 witness: one image item. -/
def bLibrary : List LibItem :=
  [{ id := 1, kind := LibKind.image, url := "a", duration := none }]

/-- Two image entries of durations 2 and 3 (the spec's boundary example). -/
def bTimeline : List Clip :=
  [{ id := 10, libId := 1, duration := some 2, caption := "" },
   { id := 11, libId := 1, duration := some 3, caption := "" }]

/-- Witness for C1 (amended) at the boundary input `t = 2` of the
2-then-3-seconds timeline. -/
theorem activeIndexAt_walk_characterization_w :
    (∀ c ∈ bTimeline, 0 ≤ lookupDur bLibrary c) ∧
    ((0 ≤ (2 : ℚ) → (2 : ℚ) < (walkDurs bLibrary bTimeline).sum →
      ∃ i : ℕ, i < bTimeline.length ∧
        takeSum (walkDurs bLibrary bTimeline) i ≤ 2 ∧
        (2 : ℚ) < takeSum (walkDurs bLibrary bTimeline) (i + 1) ∧
        activeIndexAt bLibrary bTimeline 2 =
          ⟨(i : ℤ), 2 - takeSum (walkDurs bLibrary bTimeline) i,
            takeSum (walkDurs bLibrary bTimeline) (i + 1) -
              takeSum (walkDurs bLibrary bTimeline) i⟩ ∧
        (∀ j : ℕ, takeSum (walkDurs bLibrary bTimeline) j ≤ 2 →
          (2 : ℚ) < takeSum (walkDurs bLibrary bTimeline) (j + 1) → j = i))
    ∧ ((walkDurs bLibrary bTimeline).sum ≤ 2 →
        activeIndexAt bLibrary bTimeline 2 = ⟨-1, 0, 0⟩)
    ∧ ((2 : ℚ) < 0 → bTimeline ≠ [] →
        (activeIndexAt bLibrary bTimeline 2).index = 0 ∧
        (activeIndexAt bLibrary bTimeline 2).localTime = 2)) :=
  ⟨by
    intro c hc
    fin_cases hc <;> norm_num [lookupDur, findLib, bLibrary, jsOr] <;> simp,
   activeIndexAt_walk_characterization bLibrary bTimeline 2 (by
    intro c hc
    fin_cases hc <;> norm_num [lookupDur, findLib, bLibrary, jsOr] <;> simp)⟩

/-- C2: under the §3 data-model invariant that every resolvable image entry
stores a nonzero duration, `totalDuration` equals the sum over entries of
the spec's effective duration — intrinsic duration for video entries, the
entry's own duration for image entries, and exactly 0 for an entry whose
library reference does not resolve. -/
theorem totalDuration_matches_spec (library : List LibItem) (tl : List Clip)
    (himg : ∀ c ∈ tl, ∀ lib ∈ library, findLib library c = some lib →
      lib.kind = LibKind.image → c.duration.getD 0 ≠ 0) :
    totalDuration library tl = (tl.map (specEffectiveDuration library)).sum := by
  rw [totalDuration_eq_sum]
  refine congrArg List.sum ?_
  refine List.map_congr_left ?_
  intro c hc
  have hgoal : tdDur library c = specEffectiveDuration library c := by
    cases hfind : findLib library c with
    | none => simp [tdDur, specEffectiveDuration, hfind]
    | some lib =>
        have hmem : lib ∈ library :=
          List.mem_of_find?_eq_some (by simpa [findLib] using hfind)
        cases hkind : lib.kind with
        | video => simp [tdDur, specEffectiveDuration, hfind, hkind, jsOr_zero]
        | image =>
            have hne := himg c hc lib hmem hfind hkind
            cases hdur : c.duration with
            | none => simp [hdur] at hne
            | some x =>
                have hx : x ≠ 0 := by simpa [hdur] using hne
                simp [tdDur, specEffectiveDuration, hfind, hkind, hdur, jsOr, hx]
  exact hgoal

/-- Library for the C2 witness: one image and one video item. -/
def wLibrary : List LibItem :=
  [{ id := 1, kind := LibKind.image, url := "img", duration := none },
   { id := 2, kind := LibKind.video, url := "vid", duration := some 6 }]

/-- Timeline for the C2 witness: an image entry, a video entry, and a
dangling entry. -/
def wTimeline : List Clip :=
  [{ id := 10, libId := 1, duration := some 4, caption := "" },
   { id := 11, libId := 2, duration := some 4, caption := "" },
   { id := 12, libId := 99, duration := some 4, caption := "" }]

/-- Witness for C2 on a concrete mixed timeline. -/
theorem totalDuration_matches_spec_w :
    (∀ c ∈ wTimeline, ∀ lib ∈ wLibrary, findLib wLibrary c = some lib →
      lib.kind = LibKind.image → c.duration.getD 0 ≠ 0) ∧
    totalDuration wLibrary wTimeline =
      (wTimeline.map (specEffectiveDuration wLibrary)).sum :=
  ⟨by
    intro c hc lib hlib hfind hkind
    fin_cases hc <;> fin_cases hlib <;>
      simp_all [findLib, wLibrary, List.find?],
   totalDuration_matches_spec wLibrary wTimeline (by
    intro c hc lib hlib hfind hkind
    fin_cases hc <;> fin_cases hlib <;>
      simp_all [findLib, wLibrary, List.find?])⟩

/-- Crossfade blend factor `f = Math.min(1, localTime / crossfade)` from
`renderAtTime`. -/
def blendFactor (localTime crossfade : ℚ) : ℚ :=
  min 1 (localTime / crossfade)

/-- The per-frame draw plan of `renderAtTime`'s crossfade logic: the list of
(clip index, alpha) layers drawn back-to-front. `isFading` is
`localTime < crossfade && index > 0`; when fading, the previous clip is
drawn at `1 - f` below the active clip at `f`; otherwise the active clip is
drawn at alpha 1. -/
def drawPlan (localTime crossfade : ℚ) (index : ℤ) : List (ℤ × ℚ) :=
  if localTime < crossfade ∧ 0 < index then
    [(index - 1, 1 - blendFactor localTime crossfade),
     (index, blendFactor localTime crossfade)]
  else
    [(index, 1)]

/-- C3: a frame is fading (two layers in the draw plan) iff
`localTime < crossfadeWindow` and `index > 0`; when fading, the layers are
the previous clip at `1 - f` and the active clip at `f` with
`f = min 1 (localTime / crossfadeWindow)`; `f` is monotone non-decreasing
in `localTime`; `f` is pinned to 1 once `localTime ≥ crossfadeWindow > 0`;
and with `crossfadeWindow = 0` there is no fade interval — the single clip
is drawn immediately at alpha 1. -/
theorem crossfade_blend_spec (w : ℚ) (idx : ℤ) (hw : 0 ≤ w) :
    (∀ lt : ℚ, (drawPlan lt w idx).length = 2 ↔ (lt < w ∧ 0 < idx))
    ∧ (∀ lt : ℚ, lt < w → 0 < idx →
        drawPlan lt w idx =
          [(idx - 1, 1 - blendFactor lt w), (idx, blendFactor lt w)])
    ∧ (∀ a b : ℚ, a ≤ b → blendFactor a w ≤ blendFactor b w)
    ∧ (∀ lt : ℚ, 0 < w → w ≤ lt → blendFactor lt w = 1)
    ∧ (∀ lt : ℚ, 0 ≤ lt → drawPlan lt 0 idx = [(idx, 1)]) := by
  refine ⟨?_, ?_, ?_, ?_, ?_⟩
  · intro lt
    by_cases h : lt < w ∧ 0 < idx <;> simp [drawPlan, h]
  · intro lt h1 h2
    rw [drawPlan, if_pos ⟨h1, h2⟩]
  · intro a b hab
    exact min_le_min le_rfl (div_le_div_of_nonneg_right hab hw)
  · intro lt hw0 hle
    have h1 : 1 ≤ lt / w := (one_le_div hw0).mpr hle
    exact min_eq_left h1
  · intro lt hlt
    rw [drawPlan, if_neg]
    intro hco
    linarith [hco.1]

/-- Witness for C3 at `w = 1`, `idx = 1` and concrete local times. -/
theorem crossfade_blend_spec_w :
    (0 : ℚ) ≤ 1 ∧
    ((∀ lt : ℚ, (drawPlan lt 1 1).length = 2 ↔ (lt < 1 ∧ (0 : ℤ) < 1))
    ∧ (∀ lt : ℚ, lt < 1 → (0 : ℤ) < 1 →
        drawPlan lt 1 1 =
          [(0, 1 - blendFactor lt 1), (1, blendFactor lt 1)])
    ∧ (∀ a b : ℚ, a ≤ b → blendFactor a 1 ≤ blendFactor b 1)
    ∧ (∀ lt : ℚ, (0 : ℚ) < 1 → 1 ≤ lt → blendFactor lt 1 = 1)
    ∧ (∀ lt : ℚ, 0 ≤ lt → drawPlan lt 0 1 = [(1, 1)])) := by
  refine ⟨by norm_num, ?_⟩
  have h := crossfade_blend_spec 1 1 (by norm_num)
  simpa using h

/-- JS `Math.round`: round half toward positive infinity. -/
def roundJs (x : ℚ) : ℚ :=
  ((⌊x + 1/2⌋ : ℤ) : ℚ)

/-- The duration slider's `onValueChange` handler for image entries:
`Math.min(4, Math.max(0.05, Math.round(v * 20) / 20))`. -/
def clampImageDuration (v : ℚ) : ℚ :=
  min 4 (max (1/20) (roundJs (v * 20) / 20))

/-- C4: every stored image duration lands in `[0.05, 4]`; a requested 10
stores 4; a requested -1 stores 0.05; and a request already inside the
range is kept up to the documented 0.05-step rounding (no clamping is
applied to it). -/
theorem image_duration_clamp_spec (v : ℚ) :
    (1/20 ≤ clampImageDuration v ∧ clampImageDuration v ≤ 4)
    ∧ clampImageDuration 10 = 4
    ∧ clampImageDuration (-1) = 1/20
    ∧ (∀ u : ℚ, 1/20 ≤ u → u ≤ 4 →
        clampImageDuration u = roundJs (u * 20) / 20) := by
  refine ⟨⟨?_, ?_⟩, ?_, ?_, ?_⟩
  · exact le_min (by norm_num) (le_max_left _ _)
  · exact min_le_left _ _
  · norm_num [clampImageDuration, roundJs]
  · norm_num [clampImageDuration, roundJs]
  · intro u h1 h2
    have hfl_lo : (1 : ℤ) ≤ ⌊u * 20 + 1/2⌋ := by
      apply Int.le_floor.mpr
      push_cast
      linarith
    have hfl_hi : ⌊u * 20 + 1/2⌋ ≤ 80 := by
      have h81 : ⌊u * 20 + 1/2⌋ < 81 := Int.floor_lt.mpr (by push_cast; linarith)
      omega
    have hn1 : (1 : ℚ) ≤ ((⌊u * 20 + 1/2⌋ : ℤ) : ℚ) := by exact_mod_cast hfl_lo
    have hn80 : ((⌊u * 20 + 1/2⌋ : ℤ) : ℚ) ≤ 80 := by exact_mod_cast hfl_hi
    have hlo : (1/20 : ℚ) ≤ ((⌊u * 20 + 1/2⌋ : ℤ) : ℚ) / 20 := by
      rw [div_le_div_iff₀ (by norm_num) (by norm_num)]
      linarith
    have hhi : ((⌊u * 20 + 1/2⌋ : ℤ) : ℚ) / 20 ≤ 4 := by
      rw [div_le_iff₀ (by norm_num)]
      linarith
    rw [clampImageDuration, roundJs, max_eq_right hlo, min_eq_right hhi]

/-- Witness for C4 at the concrete request `v = 2` (and `u = 2` for the
in-range clause). -/
theorem image_duration_clamp_spec_w :
    (1/20 ≤ clampImageDuration 2 ∧ clampImageDuration 2 ≤ 4)
    ∧ clampImageDuration 10 = 4
    ∧ clampImageDuration (-1) = 1/20
    ∧ clampImageDuration 2 = roundJs (2 * 20) / 20 := by
  obtain ⟨hb, h10, hm1, hin⟩ := image_duration_clamp_spec 2
  exact ⟨hb, h10, hm1, hin 2 (by norm_num) (by norm_num)⟩

/-- Embedding of `handleTimelineRowDrop`: find the dragged clip's index; no-op when it is
absent or when dropping onto itself or just after itself
(`draggedIndex === dropIndex || draggedIndex === dropIndex - 1`); otherwise
remove it and re-insert at `dropIndex - 1` when moving down
(`dropIndex > draggedIndex`), else at `dropIndex`. -/
def handleTimelineRowDrop (draggedItem : ℕ) (dropIndex : ℕ)
    (timeline : List Clip) : List Clip :=
  match timeline.findIdx? (fun c => c.id == draggedItem) with
  | none => timeline
  | some draggedIndex =>
      if (draggedIndex : ℤ) = (dropIndex : ℤ) ∨
          (draggedIndex : ℤ) = (dropIndex : ℤ) - 1 then timeline
      else
        match timeline[draggedIndex]? with
        | none => timeline
        | some draggedClip =>
            let newTimeline := timeline.eraseIdx draggedIndex
            let adjustedIndex :=
              if dropIndex > draggedIndex then dropIndex - 1 else dropIndex
            List.insertIdx adjustedIndex draggedClip newTimeline

/-- C5: with the dragged entry found at index `di`, the drop handler is the
identity when `dropIndex` is `di` or `di + 1` (dropping adjacent to the
original position); when the target is strictly beyond, the entry is removed
and re-inserted at `dropIndex - 1`; when the target is before, it is removed
and re-inserted at `dropIndex` unadjusted. -/
theorem timeline_reorder_spec (tl : List Clip) (draggedItem dropIndex di : ℕ)
    (hfind : tl.findIdx? (fun c => c.id == draggedItem) = some di) :
    ((di = dropIndex ∨ di + 1 = dropIndex) →
        handleTimelineRowDrop draggedItem dropIndex tl = tl)
    ∧ (∀ c, tl[di]? = some c → di ≠ dropIndex → di + 1 ≠ dropIndex →
        di < dropIndex →
        handleTimelineRowDrop draggedItem dropIndex tl =
          List.insertIdx (dropIndex - 1) c (tl.eraseIdx di))
    ∧ (∀ c, tl[di]? = some c → di ≠ dropIndex → di + 1 ≠ dropIndex →
        ¬ di < dropIndex →
        handleTimelineRowDrop draggedItem dropIndex tl =
          List.insertIdx dropIndex c (tl.eraseIdx di)) := by
  refine ⟨?_, ?_, ?_⟩
  · intro hadj
    simp only [handleTimelineRowDrop, hfind]
    rw [if_pos (by omega)]
  · intro c hget hne1 hne2 hlt
    simp only [handleTimelineRowDrop, hfind, hget]
    rw [if_neg (by omega)]
    simp only [gt_iff_lt]
    rw [if_pos hlt]
  · intro c hget hne1 hne2 hge
    simp only [handleTimelineRowDrop, hfind, hget]
    rw [if_neg (by omega)]
    simp only [gt_iff_lt]
    rw [if_neg hge]

/-- Three-clip timeline for the C5 witness. -/
def rTimeline : List Clip :=
  [{ id := 0, libId := 1, duration := some 4, caption := "" },
   { id := 1, libId := 1, duration := some 4, caption := "" },
   { id := 2, libId := 1, duration := some 4, caption := "" }]

/-- Witness for C5: dragging the clip with id 1 (index 1): dropping at
index 1 and at index 2 are no-ops; dropping at index 3 moves it after the
next clip (insert at 2 after removal); dropping at index 0 moves it to the
front. -/
theorem timeline_reorder_spec_w :
    (handleTimelineRowDrop 1 1 rTimeline = rTimeline)
    ∧ (handleTimelineRowDrop 1 2 rTimeline = rTimeline)
    ∧ (handleTimelineRowDrop 1 3 rTimeline =
        List.insertIdx 2 { id := 1, libId := 1, duration := some 4, caption := "" }
          (rTimeline.eraseIdx 1))
    ∧ (handleTimelineRowDrop 1 0 rTimeline =
        List.insertIdx 0 { id := 1, libId := 1, duration := some 4, caption := "" }
          (rTimeline.eraseIdx 1)) := by
  have hfind : rTimeline.findIdx? (fun c => c.id == 1) = some 1 := by
    decide
  have hget : rTimeline[1]? =
      some { id := 1, libId := 1, duration := some 4, caption := "" } := by
    decide
  refine ⟨?_, ?_, ?_, ?_⟩
  · exact (timeline_reorder_spec rTimeline 1 1 1 hfind).1 (Or.inl rfl)
  · exact (timeline_reorder_spec rTimeline 1 2 1 hfind).1 (Or.inr rfl)
  · exact (timeline_reorder_spec rTimeline 1 3 1 hfind).2.1 _ hget
      (by omega) (by omega) (by omega)
  · exact (timeline_reorder_spec rTimeline 1 0 1 hfind).2.2 _ hget
      (by omega) (by omega) (by omega)

/-- Recording state: `recState` ∈ {"idle", "recording"}. -/
inductive RecState where
  | idle
  | recording
deriving DecidableEq

/-- The slice of component state touched by `startRecording` /
`stopRecording`: the recording state, the playback flag, the stored
progress, and a count of encoder (`MediaRecorder`) allocations. -/
structure StudioState where
  recState : RecState
  isPlaying : Bool
  progress : ℚ
  encoders : ℕ
deriving DecidableEq

/-- Embedding of `startRecording`: guarded no-op while already recording; otherwise
allocates one encoder, enters the recording state, resets progress to 0 and
starts playback. -/
def startRecording (s : StudioState) : StudioState :=
  if s.recState = RecState.recording then s
  else
    { recState := RecState.recording, isPlaying := true, progress := 0,
      encoders := s.encoders + 1 }

/-- Embedding of `stopRecording`: guarded no-op while not recording; otherwise returns to
idle and stops playback, leaving progress and encoder count untouched. -/
def stopRecording (s : StudioState) : StudioState :=
  if s.recState ≠ RecState.recording then s
  else { s with recState := RecState.idle, isPlaying := false }

/-- C6: the recording machine has exactly the two states Idle and Recording;
begin-recording from Idle forces progress 0 and playing true and allocates
exactly one encoder; begin-recording while Recording is a no-op;
end-recording while Idle is a no-op; and the Recording→Idle transition
forces playing false while preserving progress and the encoder count. -/
theorem recording_state_machine_spec (s : StudioState) :
    (∀ r : RecState, r = RecState.idle ∨ r = RecState.recording)
    ∧ (s.recState = RecState.idle →
        startRecording s =
          { recState := RecState.recording, isPlaying := true, progress := 0,
            encoders := s.encoders + 1 })
    ∧ (s.recState = RecState.recording → startRecording s = s)
    ∧ (s.recState = RecState.idle → stopRecording s = s)
    ∧ (s.recState = RecState.recording →
        stopRecording s =
          { s with recState := RecState.idle, isPlaying := false }) := by
  refine ⟨?_, ?_, ?_, ?_, ?_⟩
  · intro r; cases r
    · exact Or.inl rfl
    · exact Or.inr rfl
  · intro h
    rw [startRecording, if_neg (by rw [h]; intro hco; cases hco)]
  · intro h
    rw [startRecording, if_pos h]
  · intro h
    rw [stopRecording, if_pos (by rw [h]; intro hco; cases hco)]
  · intro h
    rw [stopRecording, if_neg (by rw [h]; simp)]

/-- Witness for C6 from a concrete Idle state with nonzero prior progress. -/
theorem recording_state_machine_spec_w :
    (StudioState.mk RecState.idle false 7 0).recState = RecState.idle
    ∧ startRecording (StudioState.mk RecState.idle false 7 0) =
        StudioState.mk RecState.recording true 0 1
    ∧ startRecording (startRecording (StudioState.mk RecState.idle false 7 0)) =
        startRecording (StudioState.mk RecState.idle false 7 0)
    ∧ stopRecording (StudioState.mk RecState.idle false 7 0) =
        StudioState.mk RecState.idle false 7 0
    ∧ stopRecording (StudioState.mk RecState.recording true 3 1) =
        StudioState.mk RecState.idle false 3 1 := by
  refine ⟨rfl, ?_, ?_, ?_, ?_⟩
  · exact (recording_state_machine_spec (StudioState.mk RecState.idle false 7 0)).2.1 rfl
  · have h1 := (recording_state_machine_spec (StudioState.mk RecState.idle false 7 0)).2.1 rfl
    rw [h1]
    exact (recording_state_machine_spec (StudioState.mk RecState.recording true 0 1)).2.2.1 rfl
  · exact (recording_state_machine_spec (StudioState.mk RecState.idle false 7 0)).2.2.2.1 rfl
  · exact (recording_state_machine_spec (StudioState.mk RecState.recording true 3 1)).2.2.2.2 rfl

/-- The progress-rewind effect run on every timeline change:
`setProgress((p) => (p >= Math.max(0, totalDuration - 1e-3) ? 0 : p))`. -/
def rewindOnTimelineChange (p total : ℚ) : ℚ :=
  if p ≥ max 0 (total - 1/1000) then 0 else p

/-- C7 counterexample: with total duration 5 unchanged (no shrink) and
stored progress exactly 5 — which does not exceed the total duration at
all, let alone by more than the epsilon — the effect still rewinds progress
to 0, so "otherwise progress is left unchanged by timeline edits" fails. -/
theorem rewind_claim_counterexample :
    rewindOnTimelineChange 5 5 = 0
    ∧ ((5 : ℚ) ≤ 5)
    ∧ ¬ ((5 : ℚ) > 5 + 1/1000)
    ∧ (0 : ℚ) ≠ 5 := by
  refine ⟨?_, le_refl _, by norm_num, by norm_num⟩
  rw [rewindOnTimelineChange,
    if_pos (by rw [ge_iff_le, max_le_iff]; constructor <;> norm_num)]

/-- C7 (amended): on every timeline change the effect rewinds progress to 0
exactly when the stored progress is at or beyond
`max 0 (totalDuration - 1/1000)` — i.e. within one millisecond of, at, or
past the new total duration, regardless of whether the duration shrank —
and leaves it unchanged otherwise; consequently, for nonnegative stored
progress and total duration, the resulting progress lies in
`[0, totalDuration]`. -/
theorem rewind_on_timeline_change_spec (p total : ℚ) (hp : 0 ≤ p) :
    (p ≥ max 0 (total - 1/1000) → rewindOnTimelineChange p total = 0)
    ∧ (p < max 0 (total - 1/1000) → rewindOnTimelineChange p total = p)
    ∧ 0 ≤ rewindOnTimelineChange p total
    ∧ (0 ≤ total → rewindOnTimelineChange p total ≤ total) := by
  refine ⟨?_, ?_, ?_, ?_⟩
  · intro h
    rw [rewindOnTimelineChange, if_pos h]
  · intro h
    rw [rewindOnTimelineChange, if_neg (by push_neg; exact h)]
  · rw [rewindOnTimelineChange]
    by_cases h : p ≥ max 0 (total - 1/1000)
    · rw [if_pos h]
    · rw [if_neg h]
      exact hp
  · intro htot
    rw [rewindOnTimelineChange]
    by_cases h : p ≥ max 0 (total - 1/1000)
    · rw [if_pos h]
      exact htot
    · rw [if_neg h]
      push_neg at h
      calc p ≤ max 0 (total - 1/1000) := le_of_lt h
        _ ≤ max 0 total := by
              apply max_le_max le_rfl
              linarith
        _ = total := max_eq_right htot

/-- Witness for C7 (amended) at progress 2 with total duration 10 (kept)
and at progress 9.9995 (rewound, being within 1e-3 of the end). -/
theorem rewind_on_timeline_change_spec_w :
    (0 : ℚ) ≤ 2
    ∧ rewindOnTimelineChange 2 10 = 2
    ∧ rewindOnTimelineChange (19999/2000) 10 = 0
    ∧ 0 ≤ rewindOnTimelineChange 2 10
    ∧ rewindOnTimelineChange 2 10 ≤ 10 := by
  obtain ⟨hre, hkeep, hnn, hle⟩ := rewind_on_timeline_change_spec 2 10 (by norm_num)
  refine ⟨by norm_num, ?_, ?_, hnn, hle (by norm_num)⟩
  · refine hkeep ?_
    rw [lt_max_iff]
    right
    norm_num
  · exact (rewind_on_timeline_change_spec (19999/2000) 10 (by norm_num)).1
      (by rw [ge_iff_le, max_le_iff]; constructor <;> norm_num)

/-- Result of one playback tick: the stored progress, the time handed to
`renderAtTime`, and whether a further tick is scheduled. -/
structure TickResult where
  progress : ℚ
  renderTime : ℚ
  isPlaying : Bool
deriving DecidableEq

/-- One `tick(now)` of the playback engine:
`t = Math.max(0, (now - startedAt) / 1000)`; store
`Math.min(t, totalDuration)`; render at `t`; keep playing iff
`t < totalDuration`. -/
def tick (startedAt totalDur now : ℚ) : TickResult :=
  let t := max 0 ((now - startedAt) / 1000)
  { progress := min t totalDur
    renderTime := t
    isPlaying := decide (t < totalDur) }

/-- The virtual start instant recorded when playback begins:
`startedAt = performance.now() - progress * 1000`. -/
def virtualStart (now0 p : ℚ) : ℚ :=
  now0 - p * 1000

/-- The play/pause button handler: pausing flips the flag and leaves
progress alone; starting playback first rewinds progress to 0 when it is at
or within 1e-3 of the end. -/
def playPauseToggle (isPlaying : Bool) (p total : ℚ) : Bool × ℚ :=
  if isPlaying then (false, p)
  else (true, if p ≥ max 0 (total - 1/1000) then 0 else p)

/-- C8: each tick computes the elapsed time from the virtual start, stores
it clamped to the total duration (never looping back), renders at the
computed elapsed time, and schedules a further tick iff the elapsed time is
still below the total duration — at or past the end it halts with progress
parked at the total duration. Pausing preserves the stored progress, and
toggling play with progress at or past the end rewinds to 0 before
entering the playing state. -/
theorem playback_tick_spec (startedAt totalDur now : ℚ) :
    ((tick startedAt totalDur now).renderTime = max 0 ((now - startedAt) / 1000))
    ∧ ((tick startedAt totalDur now).progress =
        min (max 0 ((now - startedAt) / 1000)) totalDur)
    ∧ ((tick startedAt totalDur now).progress ≤ totalDur)
    ∧ ((tick startedAt totalDur now).isPlaying = true ↔
        max 0 ((now - startedAt) / 1000) < totalDur)
    ∧ (totalDur ≤ max 0 ((now - startedAt) / 1000) →
        (tick startedAt totalDur now).isPlaying = false
        ∧ (tick startedAt totalDur now).progress = totalDur)
    ∧ (∀ now0 p0, startedAt = virtualStart now0 p0 →
        (now - startedAt) / 1000 = p0 + (now - now0) / 1000)
    ∧ (∀ p, playPauseToggle true p totalDur = (false, p))
    ∧ (∀ p, 0 ≤ p → totalDur ≤ p → playPauseToggle false p totalDur = (true, 0)) := by
  refine ⟨rfl, rfl, min_le_right _ _, ?_, ?_, ?_, ?_, ?_⟩
  · simp [tick]
  · intro h
    constructor
    · simp only [tick, decide_eq_false_iff_not]
      exact not_lt.mpr h
    · simp only [tick]
      exact min_eq_right h
  · intro now0 p0 hs
    rw [hs, virtualStart]
    field_simp
    ring
  · intro p
    rw [playPauseToggle, if_pos rfl]
  · intro p hp hend
    rw [playPauseToggle, if_neg (by simp)]
    rw [if_pos]
    rw [ge_iff_le, max_le_iff]
    constructor
    · exact hp
    · linarith

/-- Witness for C8: a tick 3 virtual seconds into a 10-second timeline, a
tick past the end, a pause at progress 7, and a play-toggle at the end. -/
theorem playback_tick_spec_w :
    (tick 0 10 3000).renderTime = 3
    ∧ (tick 0 10 3000).progress = 3
    ∧ (tick 0 10 3000).isPlaying = true
    ∧ (tick 0 10 20000).isPlaying = false
    ∧ (tick 0 10 20000).progress = 10
    ∧ playPauseToggle true 7 10 = (false, 7)
    ∧ playPauseToggle false 10 10 = (true, 0) := by
  obtain ⟨hrt, hpr, _, hiff, hend, _, hpause, hplay⟩ := playback_tick_spec 0 10 3000
  obtain ⟨_, _, _, _, hend2, _, _, _⟩ := playback_tick_spec 0 10 20000
  have h2 := hend2 (by rw [le_max_iff]; right; norm_num)
  refine ⟨?_, ?_, ?_, h2.1, h2.2, hpause 7, hplay 10 (by norm_num) le_rfl⟩
  · rw [hrt]
    rw [max_eq_right (by norm_num : (0:ℚ) ≤ (3000 - 0) / 1000)]
    norm_num
  · rw [hpr]
    rw [max_eq_right (by norm_num : (0:ℚ) ≤ (3000 - 0) / 1000)]
    rw [min_eq_left (by norm_num)]
    norm_num
  · rw [hiff]
    rw [max_eq_right (by norm_num : (0:ℚ) ≤ (3000 - 0) / 1000)]
    norm_num

/-- The image cache (`imageElementsRef`): an association list from source
url to a decoded-image handle, plus a counter producing fresh handles (each
increment is one decode of a `new Image()`). -/
structure ImgCache where
  entries : List (String × ℕ)
  nextHandle : ℕ
deriving DecidableEq

/-- Embedding of `loadImage(src)` (successful-load path): return the cached drawable when
the source is present; otherwise decode a fresh image, cache it under the
source url and return it. -/
def loadImage (cache : ImgCache) (src : String) : ℕ × ImgCache :=
  match cache.entries.find? (fun e => e.1 == src) with
  | some e => (e.2, cache)
  | none =>
      (cache.nextHandle,
        { entries := (src, cache.nextHandle) :: cache.entries,
          nextHandle := cache.nextHandle + 1 })

/-- A playable video element as configured by `getVideoElement`. -/
structure VideoHandle where
  src : String
  crossOrigin : String
  muted : Bool
  playsInline : Bool
  loops : Bool
  preload : String
  autoplay : Bool
deriving DecidableEq

/-- The element created on a cache miss: muted, inline, non-looping,
preloading metadata only as configured, and never set to autoplay. -/
def createVideoElement (url : String) : VideoHandle :=
  { src := url, crossOrigin := "anonymous", muted := true, playsInline := true,
    loops := false, preload := "auto", autoplay := false }

/-- The video cache (`videoElementsRef`): an association list keyed by the
library item's id. -/
structure VideoCache where
  entries : List (ℕ × VideoHandle)
deriving DecidableEq

/-- Embedding of `getVideoElement(lib)`: return the cached handle for `lib.id` when
present; otherwise create one element for `lib.url` and cache it. -/
def getVideoElement (cache : VideoCache) (lib : LibItem) :
    VideoHandle × VideoCache :=
  match cache.entries.find? (fun e => e.1 == lib.id) with
  | some e => (e.2, cache)
  | none =>
      let v := createVideoElement lib.url
      (v, { entries := (lib.id, v) :: cache.entries })

/-- C9: `loadImage` is idempotent — a repeated call with the same source
returns the identical cached handle and the identical cache (so no second
decode: the handle counter is unchanged); `getVideoElement` likewise
returns one stable handle per library-item id, created lazily on the first
request, and after any call the cache resolves the id to exactly the
returned handle; the created element is muted, non-looping, inline and not
autoplaying. -/
theorem media_cache_spec (ic : ImgCache) (vc : VideoCache) (src : String)
    (lib : LibItem) :
    (loadImage (loadImage ic src).2 src = loadImage ic src)
    ∧ ((loadImage (loadImage ic src).2 src).2.nextHandle =
        (loadImage ic src).2.nextHandle)
    ∧ (getVideoElement (getVideoElement vc lib).2 lib = getVideoElement vc lib)
    ∧ (vc.entries.find? (fun e => e.1 == lib.id) = none →
        (getVideoElement vc lib).1 = createVideoElement lib.url)
    ∧ ((getVideoElement vc lib).2.entries.find? (fun e => e.1 == lib.id) =
        some (lib.id, (getVideoElement vc lib).1))
    ∧ ((createVideoElement lib.url).muted = true
        ∧ (createVideoElement lib.url).loops = false
        ∧ (createVideoElement lib.url).playsInline = true
        ∧ (createVideoElement lib.url).autoplay = false) := by
  have himg : loadImage (loadImage ic src).2 src = loadImage ic src := by
    cases hfind : ic.entries.find? (fun e => e.1 == src) with
    | some e =>
        have hfst : loadImage ic src = (e.2, ic) := by
          rw [loadImage, hfind]
        rw [hfst]
        rw [loadImage, hfind]
    | none =>
        have hfst : loadImage ic src =
            (ic.nextHandle,
              { entries := (src, ic.nextHandle) :: ic.entries,
                nextHandle := ic.nextHandle + 1 }) := by
          rw [loadImage, hfind]
        rw [hfst]
        rw [loadImage]
        simp [List.find?]
  have hvid : getVideoElement (getVideoElement vc lib).2 lib =
      getVideoElement vc lib := by
    cases hfind : vc.entries.find? (fun e => e.1 == lib.id) with
    | some e =>
        have hfst : getVideoElement vc lib = (e.2, vc) := by
          rw [getVideoElement, hfind]
        rw [hfst]
        rw [getVideoElement, hfind]
    | none =>
        have hfst : getVideoElement vc lib =
            (createVideoElement lib.url,
              { entries := (lib.id, createVideoElement lib.url) :: vc.entries }) := by
          rw [getVideoElement, hfind]
        rw [hfst]
        rw [getVideoElement]
        simp [List.find?]
  refine ⟨himg, by rw [himg], hvid, ?_, ?_, rfl, rfl, rfl, rfl⟩
  · intro hfind
    rw [getVideoElement, hfind]
  · cases hfind : vc.entries.find? (fun e => e.1 == lib.id) with
    | some e =>
        have hfst : getVideoElement vc lib = (e.2, vc) := by
          rw [getVideoElement, hfind]
        rw [hfst]
        have he : e.1 = lib.id := by
          have := List.find?_some hfind
          simpa using this
        rw [hfind]
        rw [← he]
    | none =>
        have hfst : getVideoElement vc lib =
            (createVideoElement lib.url,
              { entries := (lib.id, createVideoElement lib.url) :: vc.entries }) := by
          rw [getVideoElement, hfind]
        rw [hfst]
        simp [List.find?]

/-- Empty image cache for the C9 witness. -/
def emptyImgCache : ImgCache := ⟨[], 0⟩

/-- Empty video cache for the C9 witness. -/
def emptyVideoCache : VideoCache := ⟨[]⟩

/-- A concrete video library item for the C9 witness. -/
def vLib : LibItem := ⟨5, LibKind.video, "v", some 6⟩

/-- Witness for C9 starting from empty caches. -/
theorem media_cache_spec_w :
    (loadImage (loadImage emptyImgCache "s").2 "s" = loadImage emptyImgCache "s")
    ∧ ((loadImage (loadImage emptyImgCache "s").2 "s").2.nextHandle =
        (loadImage emptyImgCache "s").2.nextHandle)
    ∧ (getVideoElement (getVideoElement emptyVideoCache vLib).2 vLib =
        getVideoElement emptyVideoCache vLib)
    ∧ (getVideoElement emptyVideoCache vLib).1 = createVideoElement "v"
    ∧ ((getVideoElement emptyVideoCache vLib).2.entries.find?
        (fun e => e.1 == vLib.id) =
        some (vLib.id, (getVideoElement emptyVideoCache vLib).1))
    ∧ ((createVideoElement "v").muted = true
        ∧ (createVideoElement "v").loops = false
        ∧ (createVideoElement "v").playsInline = true
        ∧ (createVideoElement "v").autoplay = false) := by
  obtain ⟨h1, h2, h3, h4, h5, h6⟩ :=
    media_cache_spec emptyImgCache emptyVideoCache "s" vLib
  exact ⟨h1, h2, h3, h4 rfl, h5, h6⟩

/-- C10: for an image entry whose stored duration field is absent or 0
(falsy), both `totalDuration`'s per-entry contribution and the active-clip
walk substitute the fallback effective duration 3 (shown both on the
per-entry functions and on the top-level `totalDuration` / `activeIndexAt`
over a singleton timeline), while `addToTimeline` creates entries with
duration 4 — and 3 ≠ 4, so the accounting fallback differs from the
creation default. -/
theorem fallback_duration_spec (library : List LibItem) (c : Clip)
    (lib : LibItem) (hfind : findLib library c = some lib)
    (hkind : lib.kind = LibKind.image)
    (hfalsy : c.duration = none ∨ c.duration = some 0) :
    tdDur library c = 3
    ∧ lookupDur library c = 3
    ∧ totalDuration library [c] = 3
    ∧ activeIndexAt library [c] 0 = ⟨0, 0, 3⟩
    ∧ (∀ (tl : List Clip) (uuid libId : ℕ),
        (addToTimeline tl uuid libId).getLast? =
          some { id := uuid, libId := libId, duration := some 4, caption := "" })
    ∧ (3 : ℚ) ≠ 4 := by
  have hjs : jsOr c.duration 3 = 3 := by
    rcases hfalsy with h | h <;> simp [jsOr, h]
  have hnv : ¬ (lib.kind = LibKind.video) := by
    rw [hkind]
    intro hco
    cases hco
  have htd : tdDur library c = 3 := by
    simp only [tdDur, hfind]
    rw [if_neg hnv]
    exact hjs
  have hlu : lookupDur library c = 3 := by
    simp only [lookupDur, hfind]
    rw [if_neg hnv]
    exact hjs
  refine ⟨htd, hlu, ?_, ?_, ?_, by norm_num⟩
  · rw [totalDuration_eq_sum]
    simp [htd]
  · rw [activeIndexAt_cons, hlu, if_pos (by norm_num)]
  · intro tl uuid libId
    rw [addToTimeline]
    exact List.getLast?_concat _

/-- Library for the C10 witness: one image item. -/
def fLibrary : List LibItem :=
  [{ id := 1, kind := LibKind.image, url := "i", duration := none }]

/-- An image entry whose stored duration is the falsy 0. -/
def fClip : Clip := { id := 20, libId := 1, duration := some 0, caption := "" }

/-- Witness for C10 on the concrete falsy-duration entry. -/
theorem fallback_duration_spec_w :
    (findLib fLibrary fClip =
        some { id := 1, kind := LibKind.image, url := "i", duration := none }
      ∧ fClip.duration = some 0)
    ∧ (tdDur fLibrary fClip = 3
    ∧ lookupDur fLibrary fClip = 3
    ∧ totalDuration fLibrary [fClip] = 3
    ∧ activeIndexAt fLibrary [fClip] 0 = ⟨0, 0, 3⟩
    ∧ (∀ (tl : List Clip) (uuid libId : ℕ),
        (addToTimeline tl uuid libId).getLast? =
          some { id := uuid, libId := libId, duration := some 4, caption := "" })
    ∧ (3 : ℚ) ≠ 4) :=
  ⟨⟨rfl, rfl⟩,
    fallback_duration_spec fLibrary fClip
      { id := 1, kind := LibKind.image, url := "i", duration := none }
      rfl rfl (Or.inr rfl)⟩
